import Mathlib

/-!
Verification of the structural document-editing engine of the
MCP-googleDocs repository (`src/src/services/DocumentService.ts`).

The TypeScript service reads a document snapshot (`documents.get`),
resolves index ranges against it, builds ordered lists of edit requests,
and submits them via `documents.batchUpdate`.  This file shallowly embeds
the parts of that code that the specification's claims are about:

* the document data model, restricted to exactly the fields the service
  reads (`startIndex`, `endIndex`, `paragraph`, `table`, `tableRows`,
  `tableCells`, `content`, `elements`, `textRun.content`) — all of them
  optional in the loosely-typed API payloads, hence `Option` here;
* the two `updateDocument` variants (the repository file concatenates two
  revisions of the class; the first computes the document length from
  `body.content[0].endIndex`, the second from the last element);
* `appendText`, `insertLink`, and the multi-phase `insertTable`.

JavaScript's `x || d` fallback on numbers treats `0` and `undefined` as
falsy; `jsOrNat` mirrors that.  `String.prototype.trim` is mirrored by
`jsTrim`.  Network effects are modelled by passing the snapshots each
`documents.get` call returns as explicit arguments and recording every
`batchUpdate` submission and snapshot read in a trace.
-/

namespace GoogleDocs

/-- JavaScript `x || d` for an optional number: `undefined` and `0` are falsy. -/
def jsOrNat (x : Option Nat) (d : Nat) : Nat :=
  match x with
  | some n => if n = 0 then d else n
  | none => d

/-- JavaScript `String.prototype.trim`: strip leading and trailing whitespace. -/
def jsTrim (s : String) : String :=
  (((s.data.dropWhile Char.isWhitespace).reverse.dropWhile Char.isWhitespace).reverse).asString

/-- `textRun` of a paragraph element: the service only reads its `content`. -/
structure TextRun where
  content : Option String
  deriving DecidableEq

/-- An element of `paragraph.elements`. -/
structure ParagraphElement where
  startIndex : Option Nat
  endIndex : Option Nat
  textRun : Option TextRun
  deriving DecidableEq

/-- A `paragraph` value: the service only reads `elements`. -/
structure Paragraph where
  elements : List ParagraphElement
  deriving DecidableEq

/-- An element of a table cell's `content` array.  The service only ever
reads `cellElement.paragraph`, `cellElement.startIndex` and
`cellElement.endIndex` from it. -/
structure CellElement where
  startIndex : Option Nat
  endIndex : Option Nat
  paragraph : Option Paragraph
  deriving DecidableEq

/-- A `tableCells` entry. -/
structure TableCell where
  content : List CellElement
  deriving DecidableEq

/-- A `tableRows` entry. -/
structure TableRow where
  tableCells : List TableCell
  deriving DecidableEq

/-- A `table` value. -/
structure Table where
  tableRows : List TableRow
  deriving DecidableEq

/-- A top-level element of `body.content`. -/
structure StructuralElement where
  startIndex : Option Nat
  endIndex : Option Nat
  paragraph : Option Paragraph
  table : Option Table
  deriving DecidableEq

/-- `rgbColor` payload; the source writes the literals 0, 1 and 0.9, which
are exact decimal constants, embedded as rationals. -/
structure RgbColor where
  red : ℚ
  green : ℚ
  blue : ℚ
  deriving DecidableEq

/-- One border side of the `tableCellStyle` payload built by `insertTable`. -/
structure BorderStyle where
  color : RgbColor
  widthMagnitude : ℚ
  widthUnit : String
  dashStyle : String
  deriving DecidableEq

/-- The `tableCellStyle` payload fields the service sets. -/
structure TableCellStyle where
  borderTop : Option BorderStyle
  borderBottom : Option BorderStyle
  borderLeft : Option BorderStyle
  borderRight : Option BorderStyle
  backgroundColor : Option RgbColor
  deriving DecidableEq

/-- The `textStyle` payload fields the service sets. -/
structure TextStyle where
  bold : Option Bool
  link : Option String
  deriving DecidableEq

/-- One request of a `batchUpdate` body, covering the request kinds the
embedded operations build.  `updateTableCellStyle` carries the structural
cell address of the source's `tableRange.tableCellLocation`
(`tableStartLocation.index`, `rowIndex`, `columnIndex`) together with
`rowSpan` and `columnSpan`; the constructor has no character-range field
because the source never addresses a cell style by character range. -/
inductive Request where
  | insertText (index : Nat) (text : String)
  | deleteContentRange (startIndex : Nat) (endIndex : Nat)
  | insertTable (rows : Nat) (columns : Nat) (index : Nat)
  | updateTextStyle (startIndex : Nat) (endIndex : Nat) (textStyle : TextStyle) (fields : String)
  | updateParagraphStyle (startIndex : Nat) (endIndex : Nat) (alignment : String) (fields : String)
  | updateTableCellStyle (tableStartIndex : Nat) (rowIndex : Nat) (columnIndex : Nat)
      (rowSpan : Nat) (columnSpan : Nat) (tableCellStyle : TableCellStyle) (fields : String)
  deriving DecidableEq

/-- `updateDocument`, second variant (DocumentService.ts lines 564–608):
`documentEndIndex` is `body[body.length - 1]?.endIndex || 1`; the delete is
emitted only when `documentEndIndex > 2`, followed by the insert at 1. -/
def updateDocument (body : List StructuralElement) (text : String) : List Request :=
  let documentEndIndex := jsOrNat (body.getLast?.bind (fun e => e.endIndex)) 1
  (if documentEndIndex > 2 then
    [Request.deleteContentRange 1 (documentEndIndex - 1)]
  else []) ++ [Request.insertText 1 text]

/-- `updateDocument`, first variant (DocumentService.ts lines 83–123):
identical except that `contentLength` is `body?.content?.[0]?.endIndex || 1`,
i.e. read from the FIRST top-level element. -/
def updateDocumentFirstVariant (body : List StructuralElement) (text : String) : List Request :=
  let contentLength := jsOrNat (body.head?.bind (fun e => e.endIndex)) 1
  (if contentLength > 2 then
    [Request.deleteContentRange 1 (contentLength - 1)]
  else []) ++ [Request.insertText 1 text]

/-- `appendText` (lines 1036–1060): one insert at
`(body[body.length - 1]?.endIndex || 2) - 1`. -/
def appendText (body : List StructuralElement) (text : String) : List Request :=
  let endIndex := jsOrNat (body.getLast?.bind (fun e => e.endIndex)) 2 - 1
  [Request.insertText endIndex text]

/-- `insertLink` (lines 985–1029): one batch of the text insert followed by
the link style over `[index, index + text.length)`, the end computed from
the input text's length before submission. -/
def insertLink (index : Nat) (text : String) (url : String) : List Request :=
  let endIndex := index + text.length
  [Request.insertText index text,
   Request.updateTextStyle index endIndex { bold := none, link := some url } "link"]

/-- The table-lookup loop of `insertTable` (lines 766–772 and 830–836):
the first element of `body.content` that has a `table`, a non-null
`startIndex`, and `startIndex >= notBefore`; returns the element's
`startIndex` together with its `table`. -/
def findTableFrom : List StructuralElement → Nat → Option (Nat × Table)
  | [], _ => none
  | e :: rest, notBefore =>
    match e.table, e.startIndex with
    | some t, some s =>
      if notBefore ≤ s then some (s, t) else findTableFrom rest notBefore
    | _, _ => findTableFrom rest notBefore

/-- The inner cell loop of the cell-fill phase (lines 792–801): the
`startIndex` of the first element of the cell's `content` that has a
`paragraph` and a defined `startIndex`. -/
def cellInsertIndex (cell : TableCell) : Option Nat :=
  (cell.content.find? (fun ce => ce.paragraph.isSome && ce.startIndex.isSome)).bind
    (fun ce => ce.startIndex)

/-- One pending cell-fill insertion (the `cellInserts` array entries of
lines 780 and 795–799). -/
structure CellInsert where
  index : Nat
  text : String
  isHeader : Bool
  deriving DecidableEq

/-- The column loop of the cell-fill phase (lines 787–804): the loop bound
`colIdx < tableCells.length && colIdx < (data[rowIdx]?.length || 0)` is the
zip of the cells with the row's data; an entry produces a pending insert
only when its content is a non-empty string and the cell has a paragraph
with a defined start index. -/
def rowCellInserts (cells : List TableCell) (rowData : List String) (isHeaderRow : Bool) :
    List CellInsert :=
  (cells.zip rowData).filterMap (fun p =>
    if 0 < p.2.length then
      (cellInsertIndex p.1).map (fun i => { index := i, text := p.2, isHeader := isHeaderRow })
    else none)

/-- The row loop of the cell-fill phase (lines 783–805): rows are walked
while `rowIdx < tableRows.length && rowIdx < data.length` (the zip), and a
pending insert is marked as header when `headerRow && rowIdx === 0`. -/
def cellInserts (tableRows : List TableRow) (data : List (List String)) (headerRow : Bool) :
    List CellInsert :=
  ((tableRows.zip data).enum).flatMap (fun p =>
    rowCellInserts p.2.1.tableCells p.2.2 (headerRow && p.1 == 0))

/-- The decidability of the comparator of line 808. -/
instance : DecidableRel (fun (a b : CellInsert) => b.index ≤ a.index) :=
  fun a b => Nat.decLe b.index a.index

/-- `cellInserts.sort((a, b) => b.index - a.index)` (line 808): sort the
pending insertions by target index, highest first. -/
def sortCellInsertsDesc (l : List CellInsert) : List CellInsert :=
  l.insertionSort (fun a b => b.index ≤ a.index)

/-- The solid black 1pt border of lines 850–858. -/
def solidBlackBorder : BorderStyle :=
  { color := { red := 0, green := 0, blue := 0 },
    widthMagnitude := 1, widthUnit := "PT", dashStyle := "SOLID" }

/-- The `tableCellStyle` of the all-cell border pass (lines 864–870). -/
def borderCellStyle : TableCellStyle :=
  { borderTop := some solidBlackBorder, borderBottom := some solidBlackBorder,
    borderLeft := some solidBlackBorder, borderRight := some solidBlackBorder,
    backgroundColor := none }

/-- The `tableCellStyle` of the header gray-background pass (lines 943–949):
RGB 0.9/0.9/0.9. -/
def grayBackgroundCellStyle : TableCellStyle :=
  { borderTop := none, borderBottom := none, borderLeft := none, borderRight := none,
    backgroundColor := some { red := 0.9, green := 0.9, blue := 0.9 } }

/-- The bold `textStyle` of the header pass (lines 928–930). -/
def boldTextStyle : TextStyle := { bold := some true, link := none }

/-- The all-cell border pass (lines 861–884): one `updateTableCellStyle`
per `(rowIdx, colIdx)` of `range numRows × range numCols`, addressed by
`(tableStartIndex, rowIdx, colIdx)` with `rowSpan = columnSpan = 1`. -/
def borderRequests (tableStartIndex : Nat) (numRows : Nat) (numCols : Nat) : List Request :=
  (List.range numRows).flatMap (fun rowIdx =>
    (List.range numCols).map (fun colIdx =>
      Request.updateTableCellStyle tableStartIndex rowIdx colIdx 1 1 borderCellStyle
        "borderTop,borderBottom,borderLeft,borderRight"))

/-- The `CENTER` paragraph alignment of the header pass (lines 900–914):
emitted when the cell element has both `startIndex` and `endIndex`
defined. -/
def centerRequestsOf (ce : CellElement) : List Request :=
  match ce.startIndex, ce.endIndex with
  | some s, some e => [Request.updateParagraphStyle s e "CENTER" "alignment"]
  | _, _ => []

/-- The bold text style of the header pass for one paragraph element
(lines 917–936): emitted when the element has a text run and defined
indices and `(content || '').trim().length > 0`. -/
def boldRequestsOf (elem : ParagraphElement) : List Request :=
  match elem.textRun, elem.startIndex, elem.endIndex with
  | some tr, some s, some e =>
    if 0 < (jsTrim (tr.content.getD "")).length then
      [Request.updateTextStyle s e boldTextStyle "bold"]
    else []
  | _, _, _ => []

/-- The header-pass requests generated by one element of a header cell's
`content` (lines 895–937): nothing unless the element has a paragraph;
otherwise the `CENTER` paragraph style followed by the bold styles of the
paragraph's elements. -/
def headerCellElementRequests (ce : CellElement) : List Request :=
  match ce.paragraph with
  | none => []
  | some p => centerRequestsOf ce ++ p.elements.flatMap boldRequestsOf

/-- The header-pass requests of one column (lines 891–962): the per-element
requests of the cell's content, then the gray background addressed by
`(tableStartIndex, 0, colIdx)` with `rowSpan = columnSpan = 1`. -/
def headerColumnRequests (tableStartIndex : Nat) (colIdx : Nat) (cell : TableCell) :
    List Request :=
  (cell.content.flatMap headerCellElementRequests) ++
  [Request.updateTableCellStyle tableStartIndex 0 colIdx 1 1 grayBackgroundCellStyle
    "backgroundColor"]

/-- The header pass (lines 887–963): guarded by
`headerRow && updatedTableRows.length > 0` and iterating only over the
cells of `updatedTableRows[0]`. -/
def headerRequests (tableStartIndex : Nat) (tableRows : List TableRow) (headerRow : Bool) :
    List Request :=
  match headerRow, tableRows with
  | true, firstRow :: _ =>
    (firstRow.tableCells.enum).flatMap (fun p => headerColumnRequests tableStartIndex p.1 p.2)
  | _, _ => []

/-- `numCols` of the formatting step (line 847):
`updatedTableRows[0]?.tableCells?.length || columns`. -/
def formattingNumCols (tableRows : List TableRow) (columns : Nat) : Nat :=
  jsOrNat (tableRows.head?.map (fun r => r.tableCells.length)) columns

/-- The full formatting batch (step 6, lines 842–963): the all-cell border
pass followed by the header pass. -/
def formattingRequests (tableStartIndex : Nat) (t : Table) (columns : Nat) (headerRow : Bool) :
    List Request :=
  borderRequests tableStartIndex t.tableRows.length (formattingNumCols t.tableRows columns) ++
  headerRequests tableStartIndex t.tableRows headerRow

/-- One externally visible step of an operation: a `batchUpdate` submission
or a `documents.get` snapshot read. -/
inductive Action where
  | submit (requests : List Request)
  | read
  deriving DecidableEq

/-- The outcome of one `insertTable` call: the prefix of submissions and
reads that actually executed, and the error message thrown, if any. -/
structure RunResult where
  trace : List Action
  error : Option String
  deriving DecidableEq

/-- `insertTable` (lines 719–975).  The snapshots returned by the two
`documents.get` calls (step 3 and step 5) are passed as `snap1` and
`snap2`.  Steps, in source order: submit the newline insert at `index` as
its own batch; submit the table insert at `index + 1` as its own batch;
read `snap1` and locate the table — on failure the thrown
`Failed to find the inserted table in document` is wrapped by the
outer catch into the recorded message; collect and descending-sort the
cell fills and submit them as one batch when non-empty; read `snap2` and
re-locate the table — on failure return success with no further batch
(line 839: `return; // still success`); otherwise submit the formatting
batch when non-empty. -/
def insertTable (index : Nat) (rows : Nat) (columns : Nat) (data : List (List String))
    (headerRow : Bool) (snap1 : List StructuralElement) (snap2 : List StructuralElement) :
    RunResult :=
  let tableIndex := index + 1
  let phase1 : List Action :=
    [Action.submit [Request.insertText index "\n"],
     Action.submit [Request.insertTable rows columns tableIndex]]
  match findTableFrom snap1 tableIndex with
  | none =>
    { trace := phase1 ++ [Action.read],
      error := some "Failed to insert table: Error: Failed to find the inserted table in document" }
  | some (_, t) =>
    let inserts := sortCellInsertsDesc (cellInserts t.tableRows data headerRow)
    let insertActions : List Action :=
      if 0 < inserts.length then
        [Action.submit (inserts.map (fun c => Request.insertText c.index c.text))]
      else []
    match findTableFrom snap2 tableIndex with
    | none =>
      { trace := phase1 ++ [Action.read] ++ insertActions ++ [Action.read], error := none }
    | some (tableStartIndex, updatedTable) =>
      let fmt := formattingRequests tableStartIndex updatedTable columns headerRow
      let fmtActions : List Action := if 0 < fmt.length then [Action.submit fmt] else []
      { trace := phase1 ++ [Action.read] ++ insertActions ++ [Action.read] ++ fmtActions,
        error := none }

/-- Uniform shift of all character indices of a paragraph element. -/
def shiftParagraphElement (k : Nat) (pe : ParagraphElement) : ParagraphElement :=
  { pe with startIndex := pe.startIndex.map (· + k), endIndex := pe.endIndex.map (· + k) }

/-- Uniform shift of all character indices of a paragraph. -/
def shiftParagraph (k : Nat) (p : Paragraph) : Paragraph :=
  { elements := p.elements.map (shiftParagraphElement k) }

/-- Uniform shift of all character indices of a cell element. -/
def shiftCellElement (k : Nat) (ce : CellElement) : CellElement :=
  { startIndex := ce.startIndex.map (· + k), endIndex := ce.endIndex.map (· + k),
    paragraph := ce.paragraph.map (shiftParagraph k) }

/-- Uniform shift of all character indices of a table cell. -/
def shiftTableCell (k : Nat) (c : TableCell) : TableCell :=
  { content := c.content.map (shiftCellElement k) }

/-- Uniform shift of all character indices of a table row. -/
def shiftTableRow (k : Nat) (r : TableRow) : TableRow :=
  { tableCells := r.tableCells.map (shiftTableCell k) }

/-- Uniform shift of all character indices of a table, as produced by text
insertions strictly before the table. -/
def shiftTable (k : Nat) (t : Table) : Table :=
  { tableRows := t.tableRows.map (shiftTableRow k) }

/-- Structural resolution of a `(rowIndex, columnIndex)` cell address
against a table, as the backend resolves a `tableCellLocation`. -/
def resolveCell (t : Table) (rowIdx : Nat) (colIdx : Nat) : Option TableCell :=
  (t.tableRows[rowIdx]?).bind (fun r => r.tableCells[colIdx]?)

/-- Executable check that a paragraph element's run, if any, has empty
trimmed content (`(content || '').trim().length == 0`). -/
def runBlank (elem : ParagraphElement) : Bool :=
  match elem.textRun with
  | none => true
  | some tr => (jsTrim (tr.content.getD "")).length == 0

/-- Executable check that every run of a cell element's paragraph, if any,
is blank. -/
def cellElementBlank (ce : CellElement) : Bool :=
  match ce.paragraph with
  | none => true
  | some p => p.elements.all runBlank

/-- Executable check that every text run of a cell is blank — the shape of
a cell the cell-fill phase left unfilled, whose only run is the implicit
newline. -/
def allRunsBlank (cell : TableCell) : Bool :=
  cell.content.all cellElementBlank

/-- Sample cell of a freshly inserted table: one paragraph holding only
the implicit newline run, starting at character index `paraStart`. -/
def emptyCell (paraStart : Nat) : TableCell :=
  ⟨[⟨some paraStart, some (paraStart + 1),
     some ⟨[⟨some paraStart, some (paraStart + 1), some ⟨some "\n"⟩⟩]⟩⟩]⟩

/-- Sample cell after the cell-fill phase: one paragraph whose run is
`txt` plus the implicit newline. -/
def filledCell (paraStart : Nat) (txt : String) : TableCell :=
  ⟨[⟨some paraStart, some (paraStart + txt.length + 1),
     some ⟨[⟨some paraStart, some (paraStart + txt.length + 1), some ⟨some (txt ++ "\n")⟩⟩]⟩⟩]⟩

/-- Sample freshly inserted (still empty) 2×2 table. -/
def sampleTable : Table := ⟨[⟨[emptyCell 5, emptyCell 7]⟩, ⟨[emptyCell 10, emptyCell 12]⟩]⟩

/-- Sample snapshot after phase 1 of `insertTable 1 2 2 …`: a leading
paragraph element and the fresh table at start index 2. -/
def sampleSnapshot : List StructuralElement :=
  [⟨some 0, some 2, some ⟨[]⟩, none⟩, ⟨some 2, some 14, none, some sampleTable⟩]

/-- Sample 2×2 table after the cell-fill phase filled it with
`[["A", "B"], ["C", "D"]]`. -/
def filledTable : Table :=
  ⟨[⟨[filledCell 5 "A", filledCell 8 "B"]⟩, ⟨[filledCell 12 "C", filledCell 15 "D"]⟩]⟩

/-- Sample snapshot with a paragraph (end index 5) followed by a table
element (end index 20): a document with more than one top-level element. -/
def mixedSnapshot : List StructuralElement :=
  [⟨some 1, some 5, some ⟨[]⟩, none⟩, ⟨some 5, some 20, none, some ⟨[]⟩⟩]

/-- The descending-by-index comparison is total. -/
instance : IsTotal CellInsert (fun a b => b.index ≤ a.index) :=
  ⟨fun a b => Nat.le_total b.index a.index⟩

/-- The descending-by-index comparison is transitive. -/
instance : IsTrans CellInsert (fun a b => b.index ≤ a.index) :=
  ⟨fun _ _ _ hab hbc => Nat.le_trans hbc hab⟩

/-- Specification predicate for the header pass's scope: the operation is
a gray-background cell style addressed to row 0, a `CENTER` paragraph
style, or a bold text style whose range is the range of a text run with
non-empty trimmed content inside a row-0 cell. -/
def HeaderScopedOp (ts : Nat) (tableRows : List TableRow) (op : Request) : Prop :=
  (∃ colIdx, op =
      Request.updateTableCellStyle ts 0 colIdx 1 1 grayBackgroundCellStyle "backgroundColor") ∨
  (∃ s e, op = Request.updateParagraphStyle s e "CENTER" "alignment") ∨
  (∃ s e firstRow rest, tableRows = firstRow :: rest ∧
    op = Request.updateTextStyle s e boldTextStyle "bold" ∧
    ∃ cell ∈ firstRow.tableCells, ∃ ce ∈ cell.content, ∃ p, ce.paragraph = some p ∧
      ∃ elem ∈ p.elements, elem.startIndex = some s ∧ elem.endIndex = some e ∧
        ∃ tr, elem.textRun = some tr ∧ 0 < (jsTrim (tr.content.getD "")).length)

/-- Specification predicate: if the operation is an `updateTableCellStyle`
at all, its cell address is the structural triple rooted at `ts` with unit
spans. -/
def StructurallyAddressed (ts : Nat) (op : Request) : Prop :=
  ∀ s rI cI rs cs st f, op = Request.updateTableCellStyle s rI cI rs cs st f →
    s = ts ∧ rs = 1 ∧ cs = 1

/-- C1 (claim): for every document and new text, `updateDocument` computes
`E` as the `endIndex` of the last top-level element of the snapshot and
submits exactly `[DeleteRange(1, E-1), InsertText(1, text)]` when `E > 2`
and exactly `[InsertText(1, text)]` when `E ≤ 2`; every emitted delete
range has `startIndex = 1` strictly below its end index, so a zero-length
delete is never submitted. -/
theorem updateDocument_full_replace (body : List StructuralElement) (text : String) (E : Nat)
    (hlast : body.getLast?.bind (fun e => e.endIndex) = some E) (hpos : 0 < E) :
    (2 < E →
      updateDocument body text =
        [Request.deleteContentRange 1 (E - 1), Request.insertText 1 text] ∧ 1 < E - 1) ∧
    (E ≤ 2 → updateDocument body text = [Request.insertText 1 text]) ∧
    (∀ a b, Request.deleteContentRange a b ∈ updateDocument body text → a = 1 ∧ a < b) := by
  have hne : E ≠ 0 := Nat.pos_iff_ne_zero.mp hpos
  refine ⟨fun h2 => ⟨?_, by omega⟩, fun hle => ?_, fun a b hmem => ?_⟩
  · simp [updateDocument, hlast, jsOrNat, hne, h2]
  · simp [updateDocument, hlast, jsOrNat, hne, Nat.not_lt.mpr hle]
  · by_cases h2 : 2 < E
    · simp [updateDocument, hlast, jsOrNat, hne, h2] at hmem
      omega
    · simp [updateDocument, hlast, jsOrNat, hne, h2] at hmem
/-- Witness for C1 at the spec's Scenario B: a document whose last element
ends at index 12 yields the delete of `[1, 11)` then the insert. -/
theorem updateDocument_full_replace_witness :
    updateDocument [⟨some 0, some 12, none, none⟩] "Bye" =
      [Request.deleteContentRange 1 11, Request.insertText 1 "Bye"] ∧ 1 < 11 :=
  (updateDocument_full_replace [⟨some 0, some 12, none, none⟩] "Bye" 12 (by decide)
    (by decide)).1 (by decide)

/-- C9 (claim): `appendText` submits exactly one `InsertText` at
`documentEndIndex - 1`, where `documentEndIndex` is the last top-level
element's `endIndex`. -/
theorem appendText_before_trailing_newline (body : List StructuralElement) (text : String)
    (E : Nat) (hlast : body.getLast?.bind (fun e => e.endIndex) = some E) (hpos : 0 < E) :
    appendText body text = [Request.insertText (E - 1) text] := by
  have hne : E ≠ 0 := Nat.pos_iff_ne_zero.mp hpos
  simp [appendText, hlast, jsOrNat, hne]

/-- Witness for C9: a document whose last element ends at 14 gets its text
appended at index 13. -/
theorem appendText_before_trailing_newline_witness :
    appendText sampleSnapshot "T" = [Request.insertText 13 "T"] :=
  appendText_before_trailing_newline sampleSnapshot "T" 14 (by decide) (by decide)

/-- C8 (claim): `insertLink` builds exactly one batch: the text insert at
`index` immediately followed by the link style over
`[index, index + text.length)`, the end index computed from the input
text's length. -/
theorem insertLink_single_batch (index : Nat) (text : String) (url : String) :
    insertLink index text url =
      [Request.insertText index text,
       Request.updateTextStyle index (index + text.length)
         { bold := none, link := some url } "link"] ∧
    (∀ s e st f, Request.updateTextStyle s e st f ∈ insertLink index text url →
      s = index ∧ e = index + text.length ∧ st.link = some url) := by
  refine ⟨rfl, fun s e st f hmem => ?_⟩
  simp only [insertLink, List.mem_cons, List.mem_singleton] at hmem
  rcases hmem with h | h | h
  · exact absurd h (by simp)
  · obtain ⟨hs, he, hst, _⟩ := Request.updateTextStyle.inj h.symm
    exact ⟨hs.symm, he.symm, by rw [← hst]⟩
  · exact absurd h (by simp at h)

/-- Witness for C8 at the spec's Scenario D:
`insertLink(d, 5, "click here", url)` styles the range `[5, 15)`. -/
theorem insertLink_single_batch_witness :
    (5 : Nat) = 5 ∧ (15 : Nat) = 5 + "click here".length ∧
      (TextStyle.mk none (some "https://example.com")).link = some "https://example.com" :=
  (insertLink_single_batch 5 "click here" "https://example.com").2 5 15
    ⟨none, some "https://example.com"⟩ "link" (by decide)

/-- C4 (claim): the first-element and last-element `updateDocument`
variants emit the same batch on every single-element document, but on a
document with a paragraph followed by a table the first-element variant's
delete range `[1, 4)` is strictly shorter than the last-element variant's
`[1, 19)`, leaving the trailing content in `[4, 19)` un-deleted. -/
theorem updateDocument_variant_divergence (text : String) :
    (∀ e : StructuralElement, updateDocumentFirstVariant [e] text = updateDocument [e] text) ∧
    updateDocumentFirstVariant mixedSnapshot text =
      [Request.deleteContentRange 1 4, Request.insertText 1 text] ∧
    updateDocument mixedSnapshot text =
      [Request.deleteContentRange 1 19, Request.insertText 1 text] ∧
    (4 : Nat) < 19 := by
  refine ⟨fun e => ?_, rfl, rfl, by omega⟩
  simp [updateDocumentFirstVariant, updateDocument]

/-- Witness for C4: the two variants agree on a concrete single-element
document. -/
theorem updateDocument_variant_divergence_witness :
    updateDocumentFirstVariant [⟨some 0, some 12, none, none⟩] "Z" =
      updateDocument [⟨some 0, some 12, none, none⟩] "Z" :=
  (updateDocument_variant_divergence "Z").1 ⟨some 0, some 12, none, none⟩

/-- Every pending insert collected by one row of the cell-fill loop has
non-empty text: the loop only records entries whose content passes
`cellContent && cellContent.length > 0`. -/
theorem text_pos_of_mem_rowCellInserts {cells : List TableCell} {rowData : List String}
    {ih : Bool} {c : CellInsert} (hc : c ∈ rowCellInserts cells rowData ih) :
    0 < c.text.length := by
  simp only [rowCellInserts, List.mem_filterMap] at hc
  obtain ⟨p, _, hp⟩ := hc
  by_cases h : 0 < p.2.length
  · rw [if_pos h] at hp
    obtain ⟨a, _, ha⟩ := Option.map_eq_some'.mp hp
    subst ha
    exact h
  · rw [if_neg h] at hp
    exact absurd hp (by simp)

/-- Every pending insert collected by the cell-fill loops has non-empty
text. -/
theorem text_pos_of_mem_cellInserts {tableRows : List TableRow} {data : List (List String)}
    {headerRow : Bool} {c : CellInsert} (hc : c ∈ cellInserts tableRows data headerRow) :
    0 < c.text.length := by
  simp only [cellInserts, List.mem_flatMap] at hc
  obtain ⟨p, _, hp⟩ := hc
  exact text_pos_of_mem_rowCellInserts hp

/-- C2 (claim): when the resolved cell insertion indices are pairwise
distinct, the cell-fill phase emits its `InsertText` operations in
strictly descending order of target index — the sorted list is a
permutation of the collected one and strictly descending — and each
emitted insertion carries non-empty content.  All indices are resolved
against the single snapshot read in step 3, before the batch is
submitted. -/
theorem insertTable_cellFill_descending (tableRows : List TableRow)
    (data : List (List String)) (headerRow : Bool)
    (hnodup : ((cellInserts tableRows data headerRow).map (fun c => c.index)).Nodup) :
    ((sortCellInsertsDesc (cellInserts tableRows data headerRow)).map
        (fun c => c.index)).Pairwise (· > ·) ∧
    ((sortCellInsertsDesc (cellInserts tableRows data headerRow)).map (fun c => c.index)).Perm
      ((cellInserts tableRows data headerRow).map (fun c => c.index)) ∧
    ∀ c ∈ sortCellInsertsDesc (cellInserts tableRows data headerRow), 0 < c.text.length := by
  have hperm : (sortCellInsertsDesc (cellInserts tableRows data headerRow)).Perm
      (cellInserts tableRows data headerRow) := List.perm_insertionSort _ _
  have hpermmap := hperm.map (fun c => c.index)
  have hsorted : List.Sorted (fun a b : CellInsert => b.index ≤ a.index)
      (sortCellInsertsDesc (cellInserts tableRows data headerRow)) :=
    List.sorted_insertionSort _ _
  have hpair : ((sortCellInsertsDesc (cellInserts tableRows data headerRow)).map
      (fun c => c.index)).Pairwise (fun x y => y ≤ x) :=
    List.pairwise_map.mpr hsorted
  have hnodup2 : ((sortCellInsertsDesc (cellInserts tableRows data headerRow)).map
      (fun c => c.index)).Nodup := hpermmap.nodup_iff.mpr hnodup
  refine ⟨?_, hpermmap, fun c hc => text_pos_of_mem_cellInserts (hperm.mem_iff.mp hc)⟩
  exact (hpair.and hnodup2).imp (fun h => by omega)

/-- Witness for C2: on the sample fresh 2×2 table with data
`[["A","B"],["C","D"]]`, the resolved indices are distinct and the sorted
emission is strictly descending. -/
theorem insertTable_cellFill_descending_witness :
    ((sortCellInsertsDesc (cellInserts sampleTable.tableRows [["A","B"],["C","D"]] true)).map
        (fun c => c.index)).Pairwise (· > ·) ∧
    ((sortCellInsertsDesc (cellInserts sampleTable.tableRows [["A","B"],["C","D"]] true)).map
        (fun c => c.index)).Perm
      ((cellInserts sampleTable.tableRows [["A","B"],["C","D"]] true).map (fun c => c.index)) ∧
    ∀ c ∈ sortCellInsertsDesc (cellInserts sampleTable.tableRows [["A","B"],["C","D"]] true),
      0 < c.text.length :=
  insertTable_cellFill_descending sampleTable.tableRows [["A","B"],["C","D"]] true (by decide)

/-- C3 counterexample: the claim says phase 1 of `insertTable` submits a
single batch of exactly two operations.  On a concrete request the first
submission is a batch holding only the newline insert, and no submission
of the claimed two-operation batch ever occurs. -/
theorem insertTable_phase1_not_one_batch :
    (insertTable 1 2 2 [["A","B"],["C","D"]] true [] []).trace =
      [Action.submit [Request.insertText 1 "\n"],
       Action.submit [Request.insertTable 2 2 2], Action.read] ∧
    Action.submit [Request.insertText 1 "\n", Request.insertTable 2 2 2] ∉
      (insertTable 1 2 2 [["A","B"],["C","D"]] true [] []).trace := by
  refine ⟨by decide, by decide⟩

/-- C3 amended: phase 1 of `insertTable` submits two consecutive
single-operation batches — first the newline insert at the
caller-specified index, then the table insert at `index + 1` — with no
snapshot read or other submission between them. -/
theorem insertTable_phase1_two_batches (index : Nat) (rows : Nat) (columns : Nat)
    (data : List (List String)) (headerRow : Bool)
    (snap1 : List StructuralElement) (snap2 : List StructuralElement) :
    (insertTable index rows columns data headerRow snap1 snap2).trace.take 2 =
      [Action.submit [Request.insertText index "\n"],
       Action.submit [Request.insertTable rows columns (index + 1)]] := by
  rcases h1 : findTableFrom snap1 (index + 1) with _ | ⟨s, t⟩
  · simp [insertTable, h1]
  · rcases h2 : findTableFrom snap2 (index + 1) with _ | ⟨s2, t2⟩
    · simp [insertTable, h1, h2]
    · simp [insertTable, h1, h2]

/-- C7 counterexample: the claim says a failed table lookup in the
formatting phase also ends the operation in an error.  On a concrete
request whose step-5 snapshot holds no table at or after `index + 1`, the
run succeeds (`error = none`) and the trace ends at the second read with
the formatting phase silently skipped. -/
theorem insertTable_formatting_lookup_silent_success :
    findTableFrom ([] : List StructuralElement) 2 = none ∧
    (insertTable 1 2 2 [["A","B"],["C","D"]] true sampleSnapshot []).error = none ∧
    (insertTable 1 2 2 [["A","B"],["C","D"]] true sampleSnapshot []).trace.getLast? =
      some Action.read := by
  refine ⟨by decide, by decide, by decide⟩

/-- C7 amended: when the cell-fill phase's table lookup (step 3) fails,
`insertTable` ends with the fatal wrapped lookup error; when that lookup
succeeds but the formatting phase's lookup (step 5) fails, the run
returns success with the formatting phase skipped — the trace ends at the
second snapshot read. -/
theorem insertTable_lookup_failure_policy (index : Nat) (rows : Nat) (columns : Nat)
    (data : List (List String)) (headerRow : Bool)
    (snap1 : List StructuralElement) (snap2 : List StructuralElement) :
    (findTableFrom snap1 (index + 1) = none →
      (insertTable index rows columns data headerRow snap1 snap2).error =
        some "Failed to insert table: Error: Failed to find the inserted table in document") ∧
    (∀ s t, findTableFrom snap1 (index + 1) = some (s, t) →
      findTableFrom snap2 (index + 1) = none →
      (insertTable index rows columns data headerRow snap1 snap2).error = none ∧
      (insertTable index rows columns data headerRow snap1 snap2).trace.getLast? =
        some Action.read) := by
  constructor
  · intro h1
    simp [insertTable, h1]
  · intro s t h1 h2
    refine ⟨by simp [insertTable, h1, h2], ?_⟩
    simp only [insertTable, h1, h2]
    by_cases hi :
        0 < (sortCellInsertsDesc (cellInserts t.tableRows data headerRow)).length
    · simp [hi]
    · simp [hi]

/-- Witness for C7's amended statement: both failure branches exercised on
concrete snapshots. -/
theorem insertTable_lookup_failure_policy_witness :
    (insertTable 1 2 2 [["A","B"],["C","D"]] true [] []).error =
      some "Failed to insert table: Error: Failed to find the inserted table in document" ∧
    (insertTable 1 2 2 [["A","B"],["C","D"]] true sampleSnapshot []).error = none ∧
    (insertTable 1 2 2 [["A","B"],["C","D"]] true sampleSnapshot []).trace.getLast? =
      some Action.read :=
  ⟨(insertTable_lookup_failure_policy 1 2 2 [["A","B"],["C","D"]] true [] []).1 (by decide),
   (insertTable_lookup_failure_policy 1 2 2 [["A","B"],["C","D"]] true sampleSnapshot []).2
     2 sampleTable (by decide) (by decide)⟩

/-- Any request emitted by `centerRequestsOf` is the `CENTER` paragraph
style over the cell element's own defined range. -/
theorem mem_centerRequestsOf {ce : CellElement} {op : Request}
    (h : op ∈ centerRequestsOf ce) :
    ∃ s e, op = Request.updateParagraphStyle s e "CENTER" "alignment" ∧
      ce.startIndex = some s ∧ ce.endIndex = some e := by
  unfold centerRequestsOf at h
  rcases hs : ce.startIndex with _ | s
  · rw [hs] at h; simp at h
  · rcases he : ce.endIndex with _ | e
    · rw [hs, he] at h; simp at h
    · rw [hs, he] at h
      simp only [List.mem_singleton] at h
      exact ⟨s, e, h, rfl, rfl⟩

/-- Any request emitted by `boldRequestsOf` is the bold text style over a
defined run range whose `content || ''` has non-empty trimmed length. -/
theorem mem_boldRequestsOf {elem : ParagraphElement} {op : Request}
    (h : op ∈ boldRequestsOf elem) :
    ∃ s e tr, op = Request.updateTextStyle s e boldTextStyle "bold" ∧
      elem.startIndex = some s ∧ elem.endIndex = some e ∧ elem.textRun = some tr ∧
      0 < (jsTrim (tr.content.getD "")).length := by
  unfold boldRequestsOf at h
  rcases htr : elem.textRun with _ | tr
  · rw [htr] at h; simp at h
  · rcases hs : elem.startIndex with _ | s
    · rw [htr, hs] at h; simp at h
    · rcases he : elem.endIndex with _ | e
      · rw [htr, hs, he] at h; simp at h
      · rw [htr, hs, he] at h
        change op ∈ (if 0 < (jsTrim (tr.content.getD "")).length then
          [Request.updateTextStyle s e boldTextStyle "bold"] else []) at h
        by_cases hlen : 0 < (jsTrim (tr.content.getD "")).length
        · rw [if_pos hlen] at h
          simp only [List.mem_singleton] at h
          exact ⟨s, e, tr, h, rfl, rfl, rfl, hlen⟩
        · rw [if_neg hlen] at h
          simp at h

/-- Any request emitted by `headerCellElementRequests` comes from a cell
element with a paragraph, and is a center request of the element or a bold
request of one of the paragraph's elements. -/
theorem mem_headerCellElementRequests {ce : CellElement} {op : Request}
    (h : op ∈ headerCellElementRequests ce) :
    ∃ p, ce.paragraph = some p ∧
      (op ∈ centerRequestsOf ce ∨ ∃ elem ∈ p.elements, op ∈ boldRequestsOf elem) := by
  unfold headerCellElementRequests at h
  rcases hp : ce.paragraph with _ | p
  · rw [hp] at h; simp at h
  · rw [hp] at h
    simp only [List.mem_append, List.mem_flatMap] at h
    exact ⟨p, rfl, h⟩

/-- Case analysis of the header pass: every emitted request is scoped to
row 0 as spelled out by `HeaderScopedOp`. -/
theorem headerRequests_op_cases {ts : Nat} {tableRows : List TableRow} {op : Request}
    (h : op ∈ headerRequests ts tableRows true) : HeaderScopedOp ts tableRows op := by
  rcases tableRows with _ | ⟨firstRow, rest⟩
  · simp [headerRequests] at h
  · simp only [headerRequests, List.mem_flatMap] at h
    obtain ⟨p, hp, hop⟩ := h
    simp only [headerColumnRequests, List.mem_append, List.mem_singleton] at hop
    rcases hop with hop | rfl
    · simp only [List.mem_flatMap] at hop
      obtain ⟨ce, hce, hop⟩ := hop
      obtain ⟨q, hq, hcb⟩ := mem_headerCellElementRequests hop
      rcases hcb with hcb | ⟨elem, helem, hb⟩
      · obtain ⟨s, e, rfl, _, _⟩ := mem_centerRequestsOf hcb
        exact Or.inr (Or.inl ⟨s, e, rfl⟩)
      · obtain ⟨s, e, tr, rfl, hs, he, htr, hlen⟩ := mem_boldRequestsOf hb
        refine Or.inr (Or.inr ⟨s, e, firstRow, rest, rfl, rfl, p.2, ?_, ce, hce, q, hq,
          elem, helem, hs, he, tr, htr, hlen⟩)
        have hp2 : (p.1, p.2) ∈ firstRow.tableCells.enum := hp
        exact List.getElem?_mem (List.mk_mem_enum_iff_getElem?.mp hp2)
    · exact Or.inl ⟨p.1, rfl⟩

/-- C5 (claim): with `headerRow = true`, the header pass is a function of
row 0 alone — rows ≥ 1 contribute nothing and receive nothing — and every
emitted operation is row-0 scoped: the gray background goes to
`(row 0, colIdx)`, alignment is `CENTER`, and a bold text style is emitted
only over a run whose trimmed content is non-empty. -/
theorem insertTable_header_scope (ts : Nat) (tableRows : List TableRow) :
    (∀ firstRow rest,
      headerRequests ts (firstRow :: rest) true = headerRequests ts [firstRow] true) ∧
    (∀ op ∈ headerRequests ts tableRows true, HeaderScopedOp ts tableRows op) := by
  exact ⟨fun firstRow rest => rfl, fun op hop => headerRequests_op_cases hop⟩

/-- The header pass on the sample filled table, evaluated. -/
theorem headerRequests_filledTable :
    headerRequests 2 filledTable.tableRows true =
      [Request.updateParagraphStyle 5 7 "CENTER" "alignment",
       Request.updateTextStyle 5 7 boldTextStyle "bold",
       Request.updateTableCellStyle 2 0 0 1 1 grayBackgroundCellStyle "backgroundColor",
       Request.updateParagraphStyle 8 10 "CENTER" "alignment",
       Request.updateTextStyle 8 10 boldTextStyle "bold",
       Request.updateTableCellStyle 2 0 1 1 1 grayBackgroundCellStyle "backgroundColor"] := rfl

/-- Witness for C5: the gray-background operation emitted on the sample
filled table is row-0 scoped. -/
theorem insertTable_header_scope_witness :
    HeaderScopedOp 2 filledTable.tableRows
      (Request.updateTableCellStyle 2 0 0 1 1 grayBackgroundCellStyle "backgroundColor") :=
  (insertTable_header_scope 2 filledTable.tableRows).2 _
    (by rw [headerRequests_filledTable]
        exact List.Mem.tail _ (List.Mem.tail _ (List.Mem.head _)))

/-- With `headerRow = false` the header pass emits nothing. -/
theorem headerRequests_false (ts : Nat) (tableRows : List TableRow) :
    headerRequests ts tableRows false = [] := by
  cases tableRows <;> rfl

/-- Every border-pass request is an `updateTableCellStyle` rooted at the
table's start index with unit spans. -/
theorem borderRequests_shape {ts numRows numCols : Nat} {op : Request}
    (h : op ∈ borderRequests ts numRows numCols) :
    ∃ r c, r < numRows ∧ c < numCols ∧
      op = Request.updateTableCellStyle ts r c 1 1 borderCellStyle
        "borderTop,borderBottom,borderLeft,borderRight" := by
  simp only [borderRequests, List.mem_flatMap, List.mem_map, List.mem_range] at h
  obtain ⟨r, hr, c, hc, heq⟩ := h
  exact ⟨r, c, hr, hc, heq.symm⟩

/-- C6 (claim): every `updateTableCellStyle` of the formatting batch (the
all-cell border pass and the header gray-background pass) addresses its
cell structurally by `(tableStartIndex, rowIndex, columnIndex)` with
`rowSpan = columnSpan = 1` — the request constructor carries no character
range — and structural `(row, col)` addressing resolves to the same
logical cell after any uniform character-index shift of the table. -/
theorem insertTable_cellStyle_structural (ts : Nat) (t : Table) (columns : Nat)
    (headerRow : Bool) :
    (∀ op ∈ formattingRequests ts t columns headerRow, StructurallyAddressed ts op) ∧
    (∀ k rowIdx colIdx, resolveCell (shiftTable k t) rowIdx colIdx =
      (resolveCell t rowIdx colIdx).map (shiftTableCell k)) := by
  constructor
  · intro op hop
    simp only [formattingRequests, List.mem_append] at hop
    rcases hop with h | h
    · obtain ⟨r, c, _, _, rfl⟩ := borderRequests_shape h
      intro s rI cI rs cs st f heq
      cases heq
      exact ⟨rfl, rfl, rfl⟩
    · cases headerRow with
      | false => rw [headerRequests_false] at h; simp at h
      | true =>
        rcases headerRequests_op_cases h with ⟨colIdx, rfl⟩ | ⟨s, e, rfl⟩ |
          ⟨s, e, firstRow, rest, _, rfl, _⟩
        · intro s rI cI rs cs st f heq
          cases heq
          exact ⟨rfl, rfl, rfl⟩
        · intro s2 rI cI rs cs st f heq
          cases heq
        · intro s2 rI cI rs cs st f heq
          cases heq
  · intro k rowIdx colIdx
    simp only [resolveCell, shiftTable, List.getElem?_map]
    cases h : t.tableRows[rowIdx]? with
    | none => rfl
    | some row => simp [shiftTableRow, List.getElem?_map]

/-- The formatting batch on the sample filled table starts with the border
operation of cell (0, 0). -/
theorem formattingRequests_filledTable_head :
    (formattingRequests 2 filledTable 2 true).head? =
      some (Request.updateTableCellStyle 2 0 0 1 1 borderCellStyle
        "borderTop,borderBottom,borderLeft,borderRight") := rfl

/-- Witness for C6: the first formatting operation on the sample filled
table is structurally addressed, and resolving cell (1, 1) after a shift
by 3 yields the shifted version of the same logical cell. -/
theorem insertTable_cellStyle_structural_witness :
    StructurallyAddressed 2
      (Request.updateTableCellStyle 2 0 0 1 1 borderCellStyle
        "borderTop,borderBottom,borderLeft,borderRight") ∧
    resolveCell (shiftTable 3 filledTable) 1 1 =
      (resolveCell filledTable 1 1).map (shiftTableCell 3) :=
  ⟨(insertTable_cellStyle_structural 2 filledTable 2 true).1 _
      (by
        have h : formattingRequests 2 filledTable 2 true =
            Request.updateTableCellStyle 2 0 0 1 1 borderCellStyle
              "borderTop,borderBottom,borderLeft,borderRight" ::
            (formattingRequests 2 filledTable 2 true).tail := rfl
        rw [h]
        exact List.Mem.head _),
   (insertTable_cellStyle_structural 2 filledTable 2 true).2 3 1 1⟩

/-- Zipping ignores the second list beyond the first list's length. -/
theorem zip_take_length {α β : Type} (l : List α) (l2 : List β) :
    l.zip (l2.take l.length) = l.zip l2 := by
  induction l generalizing l2 with
  | nil => simp
  | cons a as ih =>
    cases l2 with
    | nil => simp
    | cons b bs => simp [ih]

/-- On a cell whose runs are all blank, the header pass still emits the
gray background and the `CENTER` alignment of each addressable paragraph,
but no bold text style. -/
theorem headerColumnRequests_blank {ts : Nat} {colIdx : Nat} {cell : TableCell}
    (hblank : allRunsBlank cell = true) :
    (Request.updateTableCellStyle ts 0 colIdx 1 1 grayBackgroundCellStyle "backgroundColor" ∈
      headerColumnRequests ts colIdx cell) ∧
    (∀ s e st f, Request.updateTextStyle s e st f ∉ headerColumnRequests ts colIdx cell) ∧
    (∀ ce ∈ cell.content, ∀ p, ce.paragraph = some p → ∀ s e, ce.startIndex = some s →
      ce.endIndex = some e →
      Request.updateParagraphStyle s e "CENTER" "alignment" ∈
        headerColumnRequests ts colIdx cell) := by
  refine ⟨List.mem_append_right _ (List.Mem.head _), ?_, ?_⟩
  · intro s e st f hmem
    rcases List.mem_append.mp hmem with h | h
    · obtain ⟨ce, hce, hop⟩ := List.mem_flatMap.mp h
      obtain ⟨p, hp, hcb⟩ := mem_headerCellElementRequests hop
      rcases hcb with hcb | ⟨elem, helem, hb⟩
      · obtain ⟨s2, e2, heq, _, _⟩ := mem_centerRequestsOf hcb
        exact absurd heq (by simp)
      · obtain ⟨s2, e2, tr, _, _, _, htr, hlen⟩ := mem_boldRequestsOf hb
        simp only [allRunsBlank, List.all_eq_true] at hblank
        have h1 := hblank ce hce
        simp only [cellElementBlank, hp, List.all_eq_true] at h1
        have h2 := h1 elem helem
        simp only [runBlank, htr, beq_iff_eq] at h2
        omega
    · simp at h
  · intro ce hce p hp s e hs he
    refine List.mem_append_left _ (List.mem_flatMap.mpr ⟨ce, hce, ?_⟩)
    unfold headerCellElementRequests
    rw [hp]
    refine List.mem_append_left _ ?_
    unfold centerRequestsOf
    rw [hs, he]
    exact List.Mem.head _

/-- C10 (claim, implicit behavior): the cell-fill phase silently truncates
the caller's data to the created table's dimensions (extra rows and extra
row entries produce no operations), empty-string entries produce no
`InsertText`, every emitted insert has non-empty text, a blank row-0 cell
under `headerRow = true` still gets the gray background and `CENTER`
alignment but no bold style, and no error is raised for any data shape
once the step-3 lookup succeeds. -/
theorem insertTable_data_truncation (tableRows : List TableRow) (data : List (List String))
    (headerRow : Bool) :
    cellInserts tableRows (data.take tableRows.length) headerRow =
      cellInserts tableRows data headerRow ∧
    (∀ cells rowData ih, rowCellInserts cells (rowData.take cells.length) ih =
      rowCellInserts cells rowData ih) ∧
    (∀ cell cells rest ih, rowCellInserts (cell :: cells) ("" :: rest) ih =
      rowCellInserts cells rest ih) ∧
    (∀ c ∈ cellInserts tableRows data headerRow, 0 < c.text.length) ∧
    (∀ ts colIdx cell, allRunsBlank cell = true →
      (Request.updateTableCellStyle ts 0 colIdx 1 1 grayBackgroundCellStyle "backgroundColor" ∈
        headerColumnRequests ts colIdx cell) ∧
      (∀ s e st f, Request.updateTextStyle s e st f ∉ headerColumnRequests ts colIdx cell) ∧
      (∀ ce ∈ cell.content, ∀ p, ce.paragraph = some p → ∀ s e, ce.startIndex = some s →
        ce.endIndex = some e →
        Request.updateParagraphStyle s e "CENTER" "alignment" ∈
          headerColumnRequests ts colIdx cell)) ∧
    (∀ index rows columns snap1 snap2 s t, findTableFrom snap1 (index + 1) = some (s, t) →
      (insertTable index rows columns data headerRow snap1 snap2).error = none) := by
  refine ⟨?_, ?_, ?_, fun c hc => text_pos_of_mem_cellInserts hc,
    fun ts colIdx cell hblank => headerColumnRequests_blank hblank, ?_⟩
  · simp only [cellInserts, zip_take_length]
  · intro cells rowData ih
    simp only [rowCellInserts, zip_take_length]
  · intro cell cells rest ih
    simp [rowCellInserts]
  · intro index rows columns snap1 snap2 s t h1
    rcases h2 : findTableFrom snap2 (index + 1) with _ | ⟨s2, t2⟩
    · simp [insertTable, h1, h2]
    · simp [insertTable, h1, h2]

/-- Witness for C10: on the sample unfilled cell the header pass emits the
gray background and center alignment and no bold style; the hypothesis
that all runs are blank is checked by evaluation. -/
theorem insertTable_data_truncation_witness :
    (Request.updateTableCellStyle 2 0 0 1 1 grayBackgroundCellStyle "backgroundColor" ∈
      headerColumnRequests 2 0 (emptyCell 5)) ∧
    (∀ s e st f, Request.updateTextStyle s e st f ∉ headerColumnRequests 2 0 (emptyCell 5)) ∧
    cellInserts sampleTable.tableRows ([["A",""],["C"],["X"]].take 2) true =
      cellInserts sampleTable.tableRows [["A",""],["C"],["X"]] true := by
  have h := insertTable_data_truncation sampleTable.tableRows [["A",""],["C"],["X"]] true
  have hb := h.2.2.2.2.1 2 0 (emptyCell 5) (by decide)
  exact ⟨hb.1, hb.2.1, h.1⟩

end GoogleDocs
